import Mathlib

/-!
Gaussian representation accumulator (`src/repr/gaus_repr.hh`).

A shallow embedding of the dense backend of `gaus_repr_t` and of the free functions
working on it: `make_gaus_repr`, `clear_repr`, `sample_repr`, `get_sampled_repr`,
`update_gradient`, `update_mean`, `update_var` and the lazy summary behind
`get_grad_type1` / `get_grad_type2`.

Modelling conventions.

* `Scalar` is an arbitrary linearly ordered field `K`: arithmetic is exact, so rounding,
  overflow, infinities and NaN of the machine type are outside the model.  Everything is
  computable at `K = ℚ`.  The theorems below are those whose truth does not rest on this
  idealisation: they are about control flow, frames, shapes and flags, or use only arithmetic
  that is exact on the machine type as well (products with `0` and `1`, sums of zeros,
  positivity of `var_min + var`).  Closed forms of the two estimators, the cancellation of
  the control variate and the order independence of the running sums hold on the machine
  type only up to rounding and for finite values, and are not stated here.
* `std::sqrt` is a library function; it is a parameter `sqrt : K → K` of the operations
  that call it.
* A dynamic Eigen matrix is its two dimensions together with its coefficients in storage
  (column-major) order.  Coefficient-wise expressions combine the stored coefficients
  position by position and take the dimensions of their left operand.
* The normal-variate source `rnorm` is a stateful functor called once per coefficient; it is
  the function giving the value of its `k`-th call.
* Only the dense overloads are embedded.  The sparse ones go through `initialize`,
  `setConstant` and `copy_matrix` of `eigen_util.hh`, which is not among the sources; of
  these only `copy_matrix`, which the setters `update_mean` / `update_var` call, is modelled.
-/

set_option autoImplicit false
set_option linter.unusedSectionVars false

namespace GausRepr

/-! ## Dense matrices -/

/-- A dynamically sized dense matrix: dimensions and coefficients in column-major order. -/
structure DenseMat (K : Type) where
  rows : Nat
  cols : Nat
  coeffs : List K
deriving DecidableEq, Repr

namespace DenseMat

variable {K : Type}

/-- The matrix has `n` rows, `m` columns and `n * m` stored coefficients. -/
def hasShape (A : DenseMat K) (n m : Nat) : Prop :=
  A.rows = n ∧ A.cols = m ∧ A.coeffs.length = n * m

instance (A : DenseMat K) (n m : Nat) : Decidable (A.hasShape n m) := by
  unfold hasShape; exact inferInstance

/-- A default-constructed Eigen matrix: `0 × 0`, no coefficients. -/
def empty : DenseMat K := ⟨0, 0, []⟩

/-- Eigen `setZero(n, m)`: resize to `n × m` and fill with zeros. -/
def setZero [Zero K] (n m : Nat) : DenseMat K := ⟨n, m, List.replicate (n * m) 0⟩

/-- Coefficient `(i, j)` in column-major storage (zero when not stored). -/
def coeff [Zero K] (A : DenseMat K) (i j : Nat) : K := A.coeffs.getD (i + j * A.rows) 0

/-- Eigen `A.unaryExpr(f)`. -/
def unaryExpr (A : DenseMat K) (f : K → K) : DenseMat K := ⟨A.rows, A.cols, A.coeffs.map f⟩

/-- Eigen `A.binaryExpr(B, f)`. -/
def binaryExpr (A B : DenseMat K) (f : K → K → K) : DenseMat K :=
  ⟨A.rows, A.cols, List.zipWith f A.coeffs B.coeffs⟩

/-- Eigen `A.cwiseProduct(B)`. -/
def cwiseProduct [Mul K] (A B : DenseMat K) : DenseMat K := A.binaryExpr B (· * ·)

/-- Eigen `A.cwiseSqrt()`, for the given square-root function. -/
def cwiseSqrt (sqrt : K → K) (A : DenseMat K) : DenseMat K := A.unaryExpr sqrt

/-- Eigen `A + B` (also the result of `A += B`). -/
def add [Add K] (A B : DenseMat K) : DenseMat K := A.binaryExpr B (· + ·)

/-- Eigen `A - B`. -/
def sub [Sub K] (A B : DenseMat K) : DenseMat K := A.binaryExpr B (· - ·)

/-- Eigen `A / c` for a scalar `c`. -/
def divScalar [Div K] (A : DenseMat K) (c : K) : DenseMat K := A.unaryExpr (· / c)

/-- Eigen `c * A` for a scalar `c`. -/
def scalarMul [Mul K] (c : K) (A : DenseMat K) : DenseMat K := A.unaryExpr (c * ·)

/-- Eigen matrix product `A * B`: `A.rows × B.cols`, coefficient `(i, j)` is
`Σ_k A(i, k) * B(k, j)` over the `A.cols` inner indices. -/
def mul [Zero K] [Add K] [Mul K] (A B : DenseMat K) : DenseMat K :=
  ⟨A.rows, B.cols,
    (List.range (A.rows * B.cols)).map fun p =>
      ((List.range A.cols).map fun k => A.coeff (p % A.rows) k * B.coeff k (p / A.rows)).sum⟩

/-- The `n × n` identity matrix (Eigen `Matrix::Identity(n, n)`). -/
def identity [Zero K] [One K] (n : Nat) : DenseMat K :=
  ⟨n, n, (List.range (n * n)).map fun p => if p % n = p / n then 1 else 0⟩

/-- The coefficients are overwritten by successive calls of the stateful functor `rnorm`,
as in `A.unaryExpr([&rnorm](const auto &x) { return rnorm(); })`: the `k`-th stored
coefficient receives the value of the `k`-th call. -/
def fillRnorm (A : DenseMat K) (rnorm : Nat → K) : DenseMat K :=
  ⟨A.rows, A.cols, (List.range A.coeffs.length).map rnorm⟩

end DenseMat

/-! ## Rotations -/

/-- The left / right operand of `sample_repr`: the tag `dummy_rotation_t` or a matrix. -/
inductive Rotation (K : Type) where
  | dummy : Rotation K
  | mat : DenseMat K → Rotation K
deriving DecidableEq, Repr

/-- The product `left * Eps`: `operator*(const dummy_rotation_t &, const Matrix &rhs)`
returns `rhs`; otherwise it is the matrix product. -/
def Rotation.mulLeft {K : Type} [Zero K] [Add K] [Mul K] :
    Rotation K → DenseMat K → DenseMat K
  | .dummy, rhs => rhs
  | .mat L, rhs => L.mul rhs

/-- The product `Eps * right`: `operator*(const Matrix &lhs, const dummy_rotation_t &)`
returns `lhs`; otherwise it is the matrix product. -/
def Rotation.mulRight {K : Type} [Zero K] [Add K] [Mul K] :
    DenseMat K → Rotation K → DenseMat K
  | lhs, .dummy => lhs
  | lhs, .mat R => lhs.mul R

/-! ## The state -/

/-- The fields of `gaus_repr_t<Matrix, dense_repr_type>`. -/
structure gaus_repr_t (K : Type) where
  n : Nat
  m : Nat
  G1 : DenseMat K
  G2 : DenseMat K
  Eta : DenseMat K
  Eps : DenseMat K
  Mean : DenseMat K
  Var : DenseMat K
  Fcum : DenseMat K
  FepsSdCum : DenseMat K
  Feps1VarCum : DenseMat K
  epsSdCum : DenseMat K
  eps1VarCum : DenseMat K
  epsSd : DenseMat K
  eps1Var : DenseMat K
  summarized : Bool
  n_add_sgd : K
deriving DecidableEq, Repr

section Ops

variable {K : Type} [LinearOrderedField K]

/-- The constant `var_min = 1e-8` of `eps_sd_op_t` and `eps_1var_op_t`. -/
def var_min : K := 1 / 100000000

/-- The functor `eps_sd_op_t`: `eps / std::sqrt(var_min + var)`. -/
def EpsSd_op (sqrt : K → K) (eps var : K) : K := eps / sqrt (var_min + var)

/-- The functor `eps_1var_op_t`: `(eps * eps - one_val) / (var_min + var)`. -/
def Eps1Var_op (eps var : K) : K := (eps * eps - 1) / (var_min + var)

namespace gaus_repr_t

/-- The constructor `gaus_repr_t(_n, _m)`: the dimensions are stored, the matrices are
default-constructed, `summarized = false` and `n_add_sgd = 0`. -/
def ctor (_n _m : Nat) : gaus_repr_t K :=
  { n := _n, m := _m
    G1 := .empty, G2 := .empty, Eta := .empty, Eps := .empty, Mean := .empty, Var := .empty
    Fcum := .empty, FepsSdCum := .empty, Feps1VarCum := .empty
    epsSdCum := .empty, eps1VarCum := .empty, epsSd := .empty, eps1Var := .empty
    summarized := false
    n_add_sgd := 0 }

/-- The member `rows()`. -/
def rows (s : gaus_repr_t K) : Nat := s.n

/-- The member `cols()`. -/
def cols (s : gaus_repr_t K) : Nat := s.m

/-- The member `get_mean()`. -/
def get_mean (s : gaus_repr_t K) : DenseMat K := s.Mean

/-- The member `get_var()`. -/
def get_var (s : gaus_repr_t K) : DenseMat K := s.Var

/-- The member `summarize()`. -/
def summarize (s : gaus_repr_t K) : gaus_repr_t K :=
  let s1 :=
    if 0 < s.n_add_sgd then
      { s with
        G1 := ((s.FepsSdCum.sub (s.epsSdCum.cwiseProduct (s.Fcum.divScalar s.n_add_sgd))).divScalar
                s.n_add_sgd)
        G2 := ((DenseMat.scalarMul (1 / 2)
                (s.Feps1VarCum.sub (s.eps1VarCum.cwiseProduct (s.Fcum.divScalar s.n_add_sgd)))).divScalar
                s.n_add_sgd) }
    else s
  { s1 with summarized := true, n_add_sgd := 0 }

/-- The member `get_grad_type1()`: the returned matrix and the state left behind. -/
def get_grad_type1 (s : gaus_repr_t K) : DenseMat K × gaus_repr_t K :=
  let s1 := if !s.summarized then s.summarize else s
  (s1.G1, s1)

/-- The member `get_grad_type2()`: the returned matrix and the state left behind. -/
def get_grad_type2 (s : gaus_repr_t K) : DenseMat K × gaus_repr_t K :=
  let s1 := if !s.summarized then s.summarize else s
  (s1.G2, s1)

end gaus_repr_t

/-- The dense overload of `clear_repr`: thirteen `setZero(n, m)` calls. -/
def clear_repr (repr : gaus_repr_t K) : gaus_repr_t K :=
  let n := repr.n
  let m := repr.m
  { repr with
    G1 := .setZero n m, G2 := .setZero n m, Eta := .setZero n m, Eps := .setZero n m
    Mean := .setZero n m, Var := .setZero n m
    Fcum := .setZero n m, FepsSdCum := .setZero n m, Feps1VarCum := .setZero n m
    epsSdCum := .setZero n m, eps1VarCum := .setZero n m
    epsSd := .setZero n m, eps1Var := .setZero n m }

/-- The dense overload of `make_gaus_repr(y)`: construct with the dimensions of the
template `y`, then `clear_repr`. -/
def make_gaus_repr (y : DenseMat K) : gaus_repr_t K :=
  clear_repr (gaus_repr_t.ctor y.rows y.cols)

/-- The generic sampler `_impl_sample_repr`: draw, rotate, shift and scale.  Returns `Eta`
and the new state. -/
def _impl_sample_repr (sqrt : K → K) (repr : gaus_repr_t K) (left right : Rotation K)
    (rnorm : Nat → K) : DenseMat K × gaus_repr_t K :=
  let r1 := { repr with Eps := repr.Eps.fillRnorm rnorm }
  let r2 := { r1 with Eps := Rotation.mulRight (Rotation.mulLeft left r1.Eps) right }
  let r3 := { r2 with Eta := r2.Mean.add (r2.Eps.cwiseProduct (r2.Var.cwiseSqrt sqrt)) }
  (r3.Eta, r3)

/-- The overloads of `sample_repr` taking a left and a right operand: the one for two
`dummy_rotation_t` has its own body without the rotation step, the others forward to
`_impl_sample_repr`. -/
def sample_repr (sqrt : K → K) (repr : gaus_repr_t K) (left right : Rotation K)
    (rnorm : Nat → K) : DenseMat K × gaus_repr_t K :=
  match left, right with
  | .dummy, .dummy =>
    let r1 := { repr with Eps := repr.Eps.fillRnorm rnorm }
    let r2 := { r1 with Eta := r1.Mean.add (r1.Eps.cwiseProduct (r1.Var.cwiseSqrt sqrt)) }
    (r2.Eta, r2)
  | l, r => _impl_sample_repr sqrt repr l r rnorm

/-- The overload `sample_repr(repr, rnorm)`: `_impl_sample_repr` with `repr.dummy` on both
sides. -/
def sample_repr_plain (sqrt : K → K) (repr : gaus_repr_t K) (rnorm : Nat → K) :
    DenseMat K × gaus_repr_t K :=
  _impl_sample_repr sqrt repr .dummy .dummy rnorm

/-- The accessor `get_sampled_repr`. -/
def get_sampled_repr (repr : gaus_repr_t K) : DenseMat K := repr.Eta

/-- The accumulator `update_gradient(repr, F)`. -/
def update_gradient (sqrt : K → K) (repr : gaus_repr_t K) (F : DenseMat K) : gaus_repr_t K :=
  let r1 := { repr with epsSd := repr.Eps.binaryExpr repr.Var (EpsSd_op sqrt) }
  let r2 := { r1 with eps1Var := r1.Eps.binaryExpr r1.Var Eps1Var_op }
  let r3 :=
    if r2.n_add_sgd = 0 then
      { r2 with
        Fcum := F
        epsSdCum := r2.epsSd
        eps1VarCum := r2.eps1Var
        FepsSdCum := F.cwiseProduct r2.epsSd
        Feps1VarCum := F.cwiseProduct r2.eps1Var }
    else
      { r2 with
        Fcum := r2.Fcum.add F
        epsSdCum := r2.epsSdCum.add r2.epsSd
        eps1VarCum := r2.eps1VarCum.add r2.eps1Var
        FepsSdCum := r2.FepsSdCum.add (F.cwiseProduct r2.epsSd)
        Feps1VarCum := r2.Feps1VarCum.add (F.cwiseProduct r2.eps1Var) }
  { r3 with n_add_sgd := r3.n_add_sgd + 1, summarized := false }

/-- Modelled from the spec: `copy_matrix` of `eigen_util.hh`, which is not part of the
sources at hand.  The spec says of its two callers that they "overwrite `Mean`/`Var`
elementwise with the supplied matrix": the destination becomes the supplied matrix. -/
def copy_matrix (src _dst : DenseMat K) : DenseMat K := src

/-- The setter `update_mean(repr, M)`. -/
def update_mean (repr : gaus_repr_t K) (M : DenseMat K) : gaus_repr_t K :=
  { repr with Mean := copy_matrix M repr.Mean, summarized := false }

/-- The setter `update_var(repr, V)`. -/
def update_var (repr : gaus_repr_t K) (V : DenseMat K) : gaus_repr_t K :=
  { repr with Var := copy_matrix V repr.Var, summarized := false }

/-! ## Specification-side definitions

The quantities the specification names, written coefficient by coefficient, to be compared
with what the embedded operations compute. -/

/-- The sampled value `Mean + Eps ⊙ sqrt(Var)`, coefficient by coefficient. -/
def eta_spec (sqrt : K → K) (Mean Eps Var : DenseMat K) : DenseMat K :=
  ⟨Mean.rows, Mean.cols,
    List.zipWith3 (fun mu e v => mu + e * sqrt v) Mean.coeffs Eps.coeffs Var.coeffs⟩

/-- Every stored coefficient is zero. -/
def DenseMat.allZero (A : DenseMat K) : Prop := ∀ x ∈ A.coeffs, x = 0

/-! ### Windows of observations -/

/-- One observation of a window: the noise matrix and the variance that are current when
`update_gradient(F)` is called, and the statistic `F` passed to it. -/
structure Obs (K : Type) where
  Eps : DenseMat K
  Var : DenseMat K
  F : DenseMat K

/-- Fold one observation in: `update_gradient(F)` called on the state whose `Eps` and `Var`
are those of the observation. -/
def observe (sqrt : K → K) (s : gaus_repr_t K) (o : Obs K) : gaus_repr_t K :=
  update_gradient sqrt { s with Eps := o.Eps, Var := o.Var } o.F

/-- Fold a sequence of observations in, first to last. -/
def foldObs (sqrt : K → K) (s : gaus_repr_t K) (obs : List (Obs K)) : gaus_repr_t K :=
  obs.foldl (observe sqrt) s

end Ops

/-! ## Sequences of calls -/

section Sequences

variable {K : Type} [LinearOrderedField K]

/-- One call on the state: any of the operations of the interface. -/
inductive Op (K : Type) where
  | clear : Op K
  | sample : Rotation K → Rotation K → (Nat → K) → Op K
  | samplePlain : (Nat → K) → Op K
  | grad : DenseMat K → Op K
  | mean : DenseMat K → Op K
  | var : DenseMat K → Op K
  | summ : Op K
  | read1 : Op K
  | read2 : Op K

/-- Run one call and keep the state it leaves. -/
def Op.run (sqrt : K → K) : Op K → gaus_repr_t K → gaus_repr_t K
  | .clear, s => clear_repr s
  | .sample l r rnorm, s => (sample_repr sqrt s l r rnorm).2
  | .samplePlain rnorm, s => (sample_repr_plain sqrt s rnorm).2
  | .grad F, s => update_gradient sqrt s F
  | .mean M, s => update_mean s M
  | .var V, s => update_var s V
  | .summ, s => s.summarize
  | .read1, s => s.get_grad_type1.2
  | .read2, s => s.get_grad_type2.2

/-- Run a sequence of calls, first to last. -/
def runOps (sqrt : K → K) (ops : List (Op K)) (s : gaus_repr_t K) : gaus_repr_t K :=
  ops.foldl (fun t op => op.run sqrt t) s

/-- A rotation operand fits dimension `k`: it is absent or a `k × k` matrix. -/
def Rotation.fits : Rotation K → Nat → Prop
  | .dummy, _ => True
  | .mat M, k => M.hasShape k k

/-- The matrices passed to the call are admissible for an `n × m` state: `F`, `M`, `V` are
`n × m`, a left rotation is absent or `n × n`, a right rotation is absent or `m × m`. -/
def Op.fits : Op K → Nat → Nat → Prop
  | .sample l r _, n, m => l.fits n ∧ r.fits m
  | .grad F, n, m => F.hasShape n m
  | .mean M, n, m => M.hasShape n m
  | .var V, n, m => V.hasShape n m
  | _, _, _ => True

/-- Every matrix field of the state is `n × m`, and so are its stored dimensions. -/
def gaus_repr_t.shaped (s : gaus_repr_t K) (n m : Nat) : Prop :=
  s.n = n ∧ s.m = m ∧
  s.G1.hasShape n m ∧ s.G2.hasShape n m ∧ s.Eta.hasShape n m ∧ s.Eps.hasShape n m ∧
  s.Mean.hasShape n m ∧ s.Var.hasShape n m ∧
  s.Fcum.hasShape n m ∧ s.FepsSdCum.hasShape n m ∧ s.Feps1VarCum.hasShape n m ∧
  s.epsSdCum.hasShape n m ∧ s.eps1VarCum.hasShape n m ∧
  s.epsSd.hasShape n m ∧ s.eps1Var.hasShape n m

/-- The operation changed `Mean`, `Var` or one of the five running sums. -/
def changesInputs (s t : gaus_repr_t K) : Prop :=
  t.Mean ≠ s.Mean ∨ t.Var ≠ s.Var ∨ t.Fcum ≠ s.Fcum ∨ t.FepsSdCum ≠ s.FepsSdCum ∨
  t.Feps1VarCum ≠ s.Feps1VarCum ∨ t.epsSdCum ≠ s.epsSdCum ∨ t.eps1VarCum ≠ s.eps1VarCum

/-- The two states hold the same window: same five running sums, same counter, same
flag. -/
def sameWindow (t u : gaus_repr_t K) : Prop :=
  t.Fcum = u.Fcum ∧ t.FepsSdCum = u.FepsSdCum ∧ t.Feps1VarCum = u.Feps1VarCum ∧
  t.epsSdCum = u.epsSdCum ∧ t.eps1VarCum = u.eps1VarCum ∧
  t.n_add_sgd = u.n_add_sgd ∧ t.summarized = u.summarized

end Sequences

/-! ## Concrete states over `ℚ` -/

/-- A `1 × 1` template matrix. -/
def y11 : DenseMat ℚ := ⟨1, 1, [0]⟩

/-- A `2 × 2` template matrix. -/
def y22 : DenseMat ℚ := ⟨2, 2, [0, 0, 0, 0]⟩

/-- A freshly constructed `1 × 1` state. -/
def fresh11 : gaus_repr_t ℚ := make_gaus_repr y11

/-- A freshly constructed `2 × 2` state. -/
def fresh22 : gaus_repr_t ℚ := make_gaus_repr y22

/-- A `1 × 1` state reached from construction: variance set to `1`, noise drawn as `2`,
one observation `F = 3` folded in (the square root is `Rat.sqrt`). -/
def oneObs11 : gaus_repr_t ℚ :=
  update_gradient Rat.sqrt
    (sample_repr Rat.sqrt (update_var fresh11 ⟨1, 1, [1]⟩) .dummy .dummy fun _ => 2).2 ⟨1, 1, [3]⟩

/-- What may happen between two gradient reads without accumulating: a sample (with or
without rotation operands) or a parameter update. -/
inductive Between (K : Type) where
  | sample : Rotation K → Rotation K → (Nat → K) → Between K
  | samplePlain : (Nat → K) → Between K
  | mean : DenseMat K → Between K
  | var : DenseMat K → Between K

/-- Run one such operation. -/
def Between.run {K : Type} [LinearOrderedField K] (sqrt : K → K) :
    Between K → gaus_repr_t K → gaus_repr_t K
  | .sample l r rnorm, s => (sample_repr sqrt s l r rnorm).2
  | .samplePlain rnorm, s => (sample_repr_plain sqrt s rnorm).2
  | .mean M, s => update_mean s M
  | .var V, s => update_var s V

/-- Run a sequence of such operations, first to last. -/
def runBetween {K : Type} [LinearOrderedField K] (sqrt : K → K) (ops : List (Between K))
    (s : gaus_repr_t K) : gaus_repr_t K :=
  ops.foldl (fun t op => op.run sqrt t) s

/-- Two `1 × 1` observations: noise `1` and `3`, variance `1`, statistics `2` and `5`. -/
def obs2 : List (Obs ℚ) :=
  [⟨⟨1, 1, [1]⟩, ⟨1, 1, [1]⟩, ⟨1, 1, [2]⟩⟩, ⟨⟨1, 1, [3]⟩, ⟨1, 1, [1]⟩, ⟨1, 1, [5]⟩⟩]

/-- A noise draw: the `k`-th call returns `k + 1`. -/
def rnormSeq : Nat → ℚ := fun k => (k : ℚ) + 1

/-- A `1 × 1` state reached from construction whose summary is valid: mean set to `5`, then
a gradient read. -/
def summarized11 : gaus_repr_t ℚ := (update_mean fresh11 ⟨1, 1, [5]⟩).get_grad_type1.2

/-- A `1 × 1` state reached from construction whose window has been consumed: the running
sums of `oneObs11` are still stored, the counter is back to `0`. -/
def consumed11 : gaus_repr_t ℚ := oneObs11.get_grad_type1.2

/-- A sequence of calls on a `2 × 2` state using every operation. -/
def opsDemo : List (Op ℚ) :=
  [.var ⟨2, 2, [1, 1, 4, 4]⟩, .sample (.mat (.identity 2)) .dummy rnormSeq,
    .grad ⟨2, 2, [1, 2, 3, 4]⟩, .read1, .clear, .mean ⟨2, 2, [5, 6, 7, 8]⟩,
    .samplePlain rnormSeq, .grad ⟨2, 2, [4, 3, 2, 1]⟩, .summ, .read2]

/-! ## Theorems -/

section Lemmas

variable {K : Type} [LinearOrderedField K]

theorem DenseMat.setZero_hasShape (n m : Nat) : (DenseMat.setZero n m : DenseMat K).hasShape n m := by
  simp [DenseMat.setZero, DenseMat.hasShape]

theorem DenseMat.setZero_allZero (n m : Nat) : (DenseMat.setZero n m : DenseMat K).allZero := by
  intro x hx
  simp only [DenseMat.setZero] at hx
  exact List.eq_of_mem_replicate hx

theorem zipWith_add_mul_map (f : K → K) :
    ∀ (a b c : List K),
      List.zipWith (· + ·) a (List.zipWith (· * ·) b (c.map f)) =
        List.zipWith3 (fun x y z => x + y * f z) a b c
  | [], _, _ => by simp [List.zipWith3]
  | _ :: _, [], _ => by simp [List.zipWith3]
  | _ :: _, _ :: _, [] => by simp [List.zipWith3]
  | x :: a, y :: b, z :: c => by simp [List.zipWith3, zipWith_add_mul_map f a b c]

theorem eta_spec_eq (sqrt : K → K) (Mean Eps Var : DenseMat K) :
    Mean.add (Eps.cwiseProduct (Var.cwiseSqrt sqrt)) = eta_spec sqrt Mean Eps Var := by
  simp only [DenseMat.add, DenseMat.cwiseProduct, DenseMat.cwiseSqrt, DenseMat.binaryExpr,
    DenseMat.unaryExpr, eta_spec, zipWith_add_mul_map]

/-- A read in a state whose counter is zero returns the stored gradients. -/
theorem read_of_zero_counter (t : gaus_repr_t K) (h : t.n_add_sgd = 0) :
    t.get_grad_type1.1 = t.G1 ∧ t.get_grad_type2.1 = t.G2 := by
  cases hs : t.summarized <;>
    simp [gaus_repr_t.get_grad_type1, gaus_repr_t.get_grad_type2, gaus_repr_t.summarize, h, hs]

/-- A read in a state that is not summarized runs `summarize`: both kinds of read leave the
same state, its counter is zero and it stores the gradients just returned. -/
theorem read_consumes (t : gaus_repr_t K) (h : t.summarized = false) :
    t.get_grad_type1.2 = t.get_grad_type2.2 ∧ t.get_grad_type1.2.n_add_sgd = 0 ∧
    t.get_grad_type1.2.G1 = t.get_grad_type1.1 ∧ t.get_grad_type1.2.G2 = t.get_grad_type2.1 := by
  simp [gaus_repr_t.get_grad_type1, gaus_repr_t.get_grad_type2, gaus_repr_t.summarize, h]

theorem Between.run_keeps (sqrt : K → K) (op : Between K) (t : gaus_repr_t K) :
    (op.run sqrt t).n_add_sgd = t.n_add_sgd ∧ (op.run sqrt t).G1 = t.G1 ∧
      (op.run sqrt t).G2 = t.G2 := by
  cases op with
  | sample l r rnorm =>
    cases l <;> cases r <;> simp [Between.run, sample_repr, _impl_sample_repr]
  | samplePlain rnorm => simp [Between.run, sample_repr_plain, _impl_sample_repr]
  | mean M => simp [Between.run, update_mean]
  | var V => simp [Between.run, update_var]

theorem runBetween_keeps (sqrt : K → K) (ops : List (Between K)) :
    ∀ t : gaus_repr_t K,
      (runBetween sqrt ops t).n_add_sgd = t.n_add_sgd ∧ (runBetween sqrt ops t).G1 = t.G1 ∧
        (runBetween sqrt ops t).G2 = t.G2 := by
  induction ops with
  | nil => intro t; simp [runBetween]
  | cons op ops ih =>
    intro t
    have h1 := ih (op.run sqrt t)
    have h2 := Between.run_keeps sqrt op t
    simp only [runBetween, List.foldl_cons] at h1 ⊢
    rw [h1.1, h1.2.1, h1.2.2, h2.1, h2.2.1, h2.2.2]
    exact ⟨rfl, rfl, rfl⟩

theorem sum_ite_mul_left (i : Nat) (g : Nat → K) :
    ∀ l : List Nat, l.Nodup →
      (l.map fun k => (if i = k then (1 : K) else 0) * g k).sum = if i ∈ l then g i else 0
  | [], _ => by simp
  | a :: l, h => by
    have hn := List.nodup_cons.mp h
    rw [List.map_cons, List.sum_cons, sum_ite_mul_left i g l hn.2]
    by_cases hia : i = a
    · subst hia
      simp [hn.1]
    · have hai : ¬ a = i := fun h => hia h.symm
      simp [hia, hai]

theorem sum_mul_ite_right (j : Nat) (g : Nat → K) :
    ∀ l : List Nat, l.Nodup →
      (l.map fun k => g k * (if k = j then (1 : K) else 0)).sum = if j ∈ l then g j else 0
  | [], _ => by simp
  | a :: l, h => by
    have hn := List.nodup_cons.mp h
    rw [List.map_cons, List.sum_cons, sum_mul_ite_right j g l hn.2]
    by_cases hja : a = j
    · subst hja
      simp [hn.1]
    · have haj : ¬ j = a := fun h => hja h.symm
      simp [hja, haj]

theorem DenseMat.identity_coeff (n i k : Nat) (hi : i < n) (hk : k < n) :
    (DenseMat.identity n : DenseMat K).coeff i k = if i = k then 1 else 0 := by
  have hlt : i + k * n < n * n := by nlinarith
  have hpos : 0 < n := by omega
  have hmod : (i + k * n) % n = i := by
    rw [Nat.add_mul_mod_self_right, Nat.mod_eq_of_lt hi]
  have hdiv : (i + k * n) / n = k := by
    rw [Nat.add_mul_div_right _ _ hpos, Nat.div_eq_of_lt hi, Nat.zero_add]
  simp [DenseMat.coeff, DenseMat.identity, List.getD_eq_getElem?_getD, hlt, hmod, hdiv]

theorem DenseMat.identity_mul (n m : Nat) (E : DenseMat K) (h : E.hasShape n m) :
    (DenseMat.identity n).mul E = E := by
  obtain ⟨hr, hc, hl⟩ := h
  cases E with
  | mk r c l =>
    simp only at hr hc hl
    subst hr hc
    have hrows : (DenseMat.identity r : DenseMat K).rows = r := rfl
    have hcols : (DenseMat.identity r : DenseMat K).cols = r := rfl
    simp only [DenseMat.mul, DenseMat.mk.injEq, true_and, hrows, hcols]
    apply List.ext_getElem
    · simp [hl]
    · intro p h1 h2
      have hp : p < r * c := by simpa using h1
      have hpos : 0 < r := by
        rcases Nat.eq_zero_or_pos r with h0 | h0
        · simp [h0] at hp
        · exact h0
      have hmod : p % r < r := Nat.mod_lt _ hpos
      simp only [List.getElem_map, List.getElem_range]
      have hcongr : (List.map (fun k => (DenseMat.identity r : DenseMat K).coeff (p % r) k *
            (DenseMat.mk r c l).coeff k (p / r)) (List.range r)) =
          List.map (fun k => (if p % r = k then (1 : K) else 0) *
            (DenseMat.mk r c l).coeff k (p / r)) (List.range r) := by
        apply List.map_congr_left
        intro k hk
        have hk2 : k < r := by simpa using hk
        rw [DenseMat.identity_coeff r (p % r) k hmod hk2]
      rw [hcongr, sum_ite_mul_left _ _ _ (List.nodup_range r)]
      simp only [List.mem_range, hmod, if_true, DenseMat.coeff]
      have : p % r + p / r * r = p := by
        rw [Nat.mul_comm]; exact Nat.mod_add_div p r
      rw [this, List.getD_eq_getElem?_getD, List.getElem?_eq_getElem h2]
      rfl

theorem DenseMat.mul_identity (n m : Nat) (E : DenseMat K) (h : E.hasShape n m) :
    E.mul (DenseMat.identity m) = E := by
  obtain ⟨hr, hc, hl⟩ := h
  cases E with
  | mk r c l =>
    simp only at hr hc hl
    subst hr hc
    have hcols : (DenseMat.identity c : DenseMat K).cols = c := rfl
    simp only [DenseMat.mul, DenseMat.mk.injEq, true_and, hcols]
    apply List.ext_getElem
    · simp [hl]
    · intro p h1 h2
      have hp : p < r * c := by simpa using h1
      have hpos : 0 < r := by
        rcases Nat.eq_zero_or_pos r with h0 | h0
        · simp [h0] at hp
        · exact h0
      have hdiv : p / r < c := by
        rw [Nat.div_lt_iff_lt_mul hpos]; rw [Nat.mul_comm]; exact hp
      simp only [List.getElem_map, List.getElem_range]
      have hcongr : (List.map (fun k => (DenseMat.mk r c l).coeff (p % r) k *
            (DenseMat.identity c : DenseMat K).coeff k (p / r)) (List.range c)) =
          List.map (fun k => (DenseMat.mk r c l).coeff (p % r) k *
            (if k = p / r then (1 : K) else 0)) (List.range c) := by
        apply List.map_congr_left
        intro k hk
        have hk2 : k < c := by simpa using hk
        rw [DenseMat.identity_coeff c k (p / r) hk2 hdiv]
      rw [hcongr, sum_mul_ite_right _ _ _ (List.nodup_range c)]
      simp only [List.mem_range, hdiv, if_true, DenseMat.coeff]
      have : p % r + p / r * r = p := by
        rw [Nat.mul_comm]; exact Nat.mod_add_div p r
      rw [this, List.getD_eq_getElem?_getD, List.getElem?_eq_getElem h2]
      rfl

theorem DenseMat.fillRnorm_hasShape (E : DenseMat K) (rnorm : Nat → K) (n m : Nat)
    (h : E.hasShape n m) : (E.fillRnorm rnorm).hasShape n m := by
  obtain ⟨hr, hc, hl⟩ := h
  simp [DenseMat.fillRnorm, DenseMat.hasShape, hr, hc, hl]

theorem DenseMat.mul_hasShape (A B : DenseMat K) : (A.mul B).hasShape A.rows B.cols := by
  simp [DenseMat.mul, DenseMat.hasShape]

theorem DenseMat.binaryExpr_hasShape (A B : DenseMat K) (f : K → K → K) (n m : Nat)
    (hA : A.hasShape n m) (hB : B.hasShape n m) : (A.binaryExpr B f).hasShape n m := by
  obtain ⟨a1, a2, a3⟩ := hA
  simp [DenseMat.binaryExpr, DenseMat.hasShape, a1, a2, a3, hB.2.2]

theorem DenseMat.unaryExpr_hasShape (A : DenseMat K) (f : K → K) (n m : Nat)
    (hA : A.hasShape n m) : (A.unaryExpr f).hasShape n m := by
  obtain ⟨a1, a2, a3⟩ := hA
  simp [DenseMat.unaryExpr, DenseMat.hasShape, a1, a2, a3]

theorem Op.run_counter (sqrt : K → K) (op : Op K) (s : gaus_repr_t K)
    (h : s.summarized = true → s.n_add_sgd = 0) :
    (op.run sqrt s).summarized = true → (op.run sqrt s).n_add_sgd = 0 := by
  cases op with
  | clear => simpa [Op.run, clear_repr] using h
  | sample l r rnorm =>
    cases l <;> cases r <;> simpa [Op.run, sample_repr, _impl_sample_repr] using h
  | samplePlain rnorm => simpa [Op.run, sample_repr_plain, _impl_sample_repr] using h
  | grad F => simp [Op.run, update_gradient]
  | mean M => simp [Op.run, update_mean]
  | var V => simp [Op.run, update_var]
  | summ => simp [Op.run, gaus_repr_t.summarize]
  | read1 =>
    cases hs : s.summarized
    · simp [Op.run, gaus_repr_t.get_grad_type1, gaus_repr_t.summarize, hs]
    · simpa [Op.run, gaus_repr_t.get_grad_type1, hs] using h hs
  | read2 =>
    cases hs : s.summarized
    · simp [Op.run, gaus_repr_t.get_grad_type2, gaus_repr_t.summarize, hs]
    · simpa [Op.run, gaus_repr_t.get_grad_type2, hs] using h hs

theorem runOps_counter (sqrt : K → K) (ops : List (Op K)) :
    ∀ s : gaus_repr_t K, (s.summarized = true → s.n_add_sgd = 0) →
      (runOps sqrt ops s).summarized = true → (runOps sqrt ops s).n_add_sgd = 0 := by
  induction ops with
  | nil => intro s h; simpa [runOps] using h
  | cons op ops ih =>
    intro s h
    have h1 := ih (op.run sqrt s) (Op.run_counter sqrt op s h)
    simpa [runOps] using h1

theorem read_sets_flags (s : gaus_repr_t K) (h : s.summarized = true → s.n_add_sgd = 0) :
    s.get_grad_type1.2.n_add_sgd = 0 ∧ s.get_grad_type1.2.summarized = true ∧
    s.get_grad_type2.2.n_add_sgd = 0 ∧ s.get_grad_type2.2.summarized = true := by
  cases hs : s.summarized
  · simp [gaus_repr_t.get_grad_type1, gaus_repr_t.get_grad_type2, gaus_repr_t.summarize, hs]
  · simp [gaus_repr_t.get_grad_type1, gaus_repr_t.get_grad_type2, hs, h hs]

theorem Rotation.mulLeft_hasShape (l : Rotation K) (E : DenseMat K) (n m : Nat)
    (hl : l.fits n) (hE : E.hasShape n m) : (l.mulLeft E).hasShape n m := by
  cases l with
  | dummy => exact hE
  | mat L =>
    have h := DenseMat.mul_hasShape L E
    have h1 : L.rows = n := hl.1
    have h2 : E.cols = m := hE.2.1
    rw [h1, h2] at h
    exact h

theorem Rotation.mulRight_hasShape (r : Rotation K) (E : DenseMat K) (n m : Nat)
    (hr : r.fits m) (hE : E.hasShape n m) : (Rotation.mulRight E r).hasShape n m := by
  cases r with
  | dummy => exact hE
  | mat R =>
    have h := DenseMat.mul_hasShape E R
    have h1 : E.rows = n := hE.1
    have h2 : R.cols = m := hr.2.1
    rw [h1, h2] at h
    exact h

theorem impl_sample_shaped (sqrt : K → K) (s : gaus_repr_t K) (l r : Rotation K)
    (rnorm : Nat → K) (n m : Nat) (hs : s.shaped n m) (hl : l.fits n) (hr : r.fits m) :
    (_impl_sample_repr sqrt s l r rnorm).2.shaped n m := by
  obtain ⟨a1, a2, a3, a4, a5, a6, a7, a8, a9, a10, a11, a12, a13, a14, a15⟩ := hs
  have hE := Rotation.mulRight_hasShape r _ n m hr
    (Rotation.mulLeft_hasShape l _ n m hl (DenseMat.fillRnorm_hasShape s.Eps rnorm n m a6))
  have hEta := DenseMat.binaryExpr_hasShape s.Mean _ (· + ·) n m a7
    (DenseMat.binaryExpr_hasShape _ _ (· * ·) n m hE (DenseMat.unaryExpr_hasShape s.Var sqrt n m a8))
  exact ⟨a1, a2, a3, a4, hEta, hE, a7, a8, a9, a10, a11, a12, a13, a14, a15⟩

theorem sample_shaped (sqrt : K → K) (s : gaus_repr_t K) (l r : Rotation K)
    (rnorm : Nat → K) (n m : Nat) (hs : s.shaped n m) (hl : l.fits n) (hr : r.fits m) :
    (sample_repr sqrt s l r rnorm).2.shaped n m := by
  have h := impl_sample_shaped sqrt s l r rnorm n m hs hl hr
  cases l <;> cases r <;> simpa [sample_repr, _impl_sample_repr, Rotation.mulLeft,
    Rotation.mulRight] using h

theorem update_gradient_shaped (sqrt : K → K) (s : gaus_repr_t K) (F : DenseMat K) (n m : Nat)
    (hs : s.shaped n m) (hF : F.hasShape n m) : (update_gradient sqrt s F).shaped n m := by
  obtain ⟨a1, a2, a3, a4, a5, a6, a7, a8, a9, a10, a11, a12, a13, a14, a15⟩ := hs
  have hE := DenseMat.binaryExpr_hasShape s.Eps s.Var (EpsSd_op sqrt) n m a6 a8
  have hV := DenseMat.binaryExpr_hasShape s.Eps s.Var Eps1Var_op n m a6 a8
  have hFE := DenseMat.binaryExpr_hasShape F _ (· * ·) n m hF hE
  have hFV := DenseMat.binaryExpr_hasShape F _ (· * ·) n m hF hV
  by_cases h0 : s.n_add_sgd = 0
  · simp only [update_gradient, h0, if_true, DenseMat.cwiseProduct]
    exact ⟨a1, a2, a3, a4, a5, a6, a7, a8, hF, hFE, hFV, hE, hV, hE, hV⟩
  · simp only [update_gradient, h0, if_false, DenseMat.cwiseProduct, DenseMat.add]
    exact ⟨a1, a2, a3, a4, a5, a6, a7, a8,
      DenseMat.binaryExpr_hasShape _ _ _ n m a9 hF,
      DenseMat.binaryExpr_hasShape _ _ _ n m a10 hFE,
      DenseMat.binaryExpr_hasShape _ _ _ n m a11 hFV,
      DenseMat.binaryExpr_hasShape _ _ _ n m a12 hE,
      DenseMat.binaryExpr_hasShape _ _ _ n m a13 hV, hE, hV⟩

theorem summarize_shaped (s : gaus_repr_t K) (n m : Nat) (hs : s.shaped n m) :
    s.summarize.shaped n m := by
  obtain ⟨a1, a2, a3, a4, a5, a6, a7, a8, a9, a10, a11, a12, a13, a14, a15⟩ := hs
  by_cases h0 : 0 < s.n_add_sgd
  · have d1 := DenseMat.unaryExpr_hasShape s.Fcum (· / s.n_add_sgd) n m a9
    have g1 := DenseMat.unaryExpr_hasShape _ (· / s.n_add_sgd) n m
      (DenseMat.binaryExpr_hasShape s.FepsSdCum _ (· - ·) n m a10
        (DenseMat.binaryExpr_hasShape s.epsSdCum _ (· * ·) n m a12 d1))
    have g2 := DenseMat.unaryExpr_hasShape _ (· / s.n_add_sgd) n m
      (DenseMat.unaryExpr_hasShape _ ((1 / 2 : K) * ·) n m
        (DenseMat.binaryExpr_hasShape s.Feps1VarCum _ (· - ·) n m a11
          (DenseMat.binaryExpr_hasShape s.eps1VarCum _ (· * ·) n m a13 d1)))
    simp only [gaus_repr_t.summarize, h0, if_true, DenseMat.sub, DenseMat.cwiseProduct,
      DenseMat.divScalar, DenseMat.scalarMul]
    exact ⟨a1, a2, g1, g2, a5, a6, a7, a8, a9, a10, a11, a12, a13, a14, a15⟩
  · simp only [gaus_repr_t.summarize, h0, if_false]
    exact ⟨a1, a2, a3, a4, a5, a6, a7, a8, a9, a10, a11, a12, a13, a14, a15⟩

theorem clear_repr_shaped (s : gaus_repr_t K) (n m : Nat) (h1 : s.n = n) (h2 : s.m = m) :
    (clear_repr s).shaped n m := by
  have hz : (DenseMat.setZero s.n s.m : DenseMat K).hasShape n m := by
    rw [h1, h2]
    exact DenseMat.setZero_hasShape n m
  exact ⟨h1, h2, hz, hz, hz, hz, hz, hz, hz, hz, hz, hz, hz, hz, hz⟩

theorem Op.run_shaped (sqrt : K → K) (op : Op K) (s : gaus_repr_t K) (n m : Nat)
    (hs : s.shaped n m) (hop : op.fits n m) : (op.run sqrt s).shaped n m := by
  cases op with
  | clear => exact clear_repr_shaped s n m hs.1 hs.2.1
  | sample l r rnorm => exact sample_shaped sqrt s l r rnorm n m hs hop.1 hop.2
  | samplePlain rnorm => exact impl_sample_shaped sqrt s .dummy .dummy rnorm n m hs trivial trivial
  | grad F => exact update_gradient_shaped sqrt s F n m hs hop
  | mean M =>
    obtain ⟨a1, a2, a3, a4, a5, a6, a7, a8, a9, a10, a11, a12, a13, a14, a15⟩ := hs
    exact ⟨a1, a2, a3, a4, a5, a6, hop, a8, a9, a10, a11, a12, a13, a14, a15⟩
  | var V =>
    obtain ⟨a1, a2, a3, a4, a5, a6, a7, a8, a9, a10, a11, a12, a13, a14, a15⟩ := hs
    exact ⟨a1, a2, a3, a4, a5, a6, a7, hop, a9, a10, a11, a12, a13, a14, a15⟩
  | summ => exact summarize_shaped s n m hs
  | read1 =>
    cases h : s.summarized
    · simpa [Op.run, gaus_repr_t.get_grad_type1, h] using summarize_shaped s n m hs
    · simpa [Op.run, gaus_repr_t.get_grad_type1, h] using hs
  | read2 =>
    cases h : s.summarized
    · simpa [Op.run, gaus_repr_t.get_grad_type2, h] using summarize_shaped s n m hs
    · simpa [Op.run, gaus_repr_t.get_grad_type2, h] using hs

theorem runOps_shaped (sqrt : K → K) (n m : Nat) (ops : List (Op K)) :
    ∀ s : gaus_repr_t K, s.shaped n m → (∀ op ∈ ops, op.fits n m) →
      (runOps sqrt ops s).shaped n m := by
  induction ops with
  | nil => intro s hs _; simpa [runOps] using hs
  | cons op ops ih =>
    intro s hs hops
    have h1 := ih (op.run sqrt s)
      (Op.run_shaped sqrt op s n m hs (hops op (List.mem_cons_self _ _)))
      (fun o ho => hops o (List.mem_cons_of_mem _ ho))
    simpa [runOps] using h1

theorem observe_sameWindow_first (sqrt : K → K) (t u : gaus_repr_t K) (o : Obs K)
    (ht : t.n_add_sgd = 0) (hu : u.n_add_sgd = 0) :
    sameWindow (observe sqrt t o) (observe sqrt u o) := by
  simp [sameWindow, observe, update_gradient, ht, hu]

theorem observe_sameWindow (sqrt : K → K) (t u : gaus_repr_t K) (o : Obs K)
    (h : sameWindow t u) : sameWindow (observe sqrt t o) (observe sqrt u o) := by
  obtain ⟨h1, h2, h3, h4, h5, h6, h7⟩ := h
  by_cases h0 : u.n_add_sgd = 0
  · exact observe_sameWindow_first sqrt t u o (h6.trans h0) h0
  · have h0t : ¬ t.n_add_sgd = 0 := fun h => h0 (h6 ▸ h)
    simp [sameWindow, observe, update_gradient, h0, h0t, h1, h2, h3, h4, h5, h6]

theorem foldObs_sameWindow (sqrt : K → K) (l : List (Obs K)) :
    ∀ t u : gaus_repr_t K, sameWindow t u →
      sameWindow (foldObs sqrt t l) (foldObs sqrt u l) := by
  induction l with
  | nil => intro t u h; simpa [foldObs] using h
  | cons o l ih =>
    intro t u h
    have h1 := ih _ _ (observe_sameWindow sqrt t u o h)
    simpa [foldObs] using h1

theorem foldObs_counter (sqrt : K → K) (l : List (Obs K)) :
    ∀ t : gaus_repr_t K, (foldObs sqrt t l).n_add_sgd = t.n_add_sgd + (l.length : K) := by
  induction l with
  | nil => intro t; simp [foldObs]
  | cons o l ih =>
    intro t
    have h1 := ih (observe sqrt t o)
    have h2 : (observe sqrt t o).n_add_sgd = t.n_add_sgd + 1 := by
      by_cases h0 : t.n_add_sgd = 0 <;> simp [observe, update_gradient, h0]
    simp only [foldObs, List.foldl_cons] at h1 ⊢
    rw [h1, h2, List.length_cons]
    push_cast
    ring

theorem foldObs_pending (sqrt : K → K) (l : List (Obs K)) :
    ∀ t : gaus_repr_t K, l ≠ [] → (foldObs sqrt t l).summarized = false := by
  induction l using List.reverseRecOn with
  | nil => intro t h; exact absurd rfl h
  | append_singleton l o _ =>
    intro t _
    simp [foldObs, List.foldl_append, observe, update_gradient]

theorem read_sameWindow (t u : gaus_repr_t K) (h : sameWindow t u)
    (hs : t.summarized = false) (hn : 0 < t.n_add_sgd) :
    t.get_grad_type1.1 = u.get_grad_type1.1 ∧ t.get_grad_type2.1 = u.get_grad_type2.1 := by
  obtain ⟨h1, h2, h3, h4, h5, h6, h7⟩ := h
  have hs2 : u.summarized = false := by rw [← h7]; exact hs
  have hn2 : 0 < u.n_add_sgd := by rw [← h6]; exact hn
  simp [gaus_repr_t.get_grad_type1, gaus_repr_t.get_grad_type2, gaus_repr_t.summarize, hs, hs2,
    hn, hn2, h1, h2, h3, h4, h5, h6]

end Lemmas

section Claims

variable {K : Type} [LinearOrderedField K]

/-- C4: stale-value policy.  In a state with `n_add_sgd = 0` and `summarized = false`,
`get_grad_type1` and `get_grad_type2` return the stored `G1` and `G2`, and the state they
leave differs from the one they found only in `summarized`, now true; `n_add_sgd` is
still `0`. -/
theorem stale_read (s : gaus_repr_t K) (h0 : s.n_add_sgd = 0) (hs : s.summarized = false) :
    s.get_grad_type1 = (s.G1, { s with summarized := true }) ∧
    s.get_grad_type2 = (s.G2, { s with summarized := true }) ∧
    s.get_grad_type1.2.n_add_sgd = 0 ∧ s.get_grad_type2.2.n_add_sgd = 0 := by
  simp [gaus_repr_t.get_grad_type1, gaus_repr_t.get_grad_type2, gaus_repr_t.summarize, h0, hs]

/-- Witness of C4 at the freshly constructed `1 × 1` state. -/
theorem stale_read_witness :
    (fresh11.n_add_sgd = 0 ∧ fresh11.summarized = false) ∧
    (fresh11.get_grad_type1 = (fresh11.G1, { fresh11 with summarized := true }) ∧
      fresh11.get_grad_type2 = (fresh11.G2, { fresh11 with summarized := true }) ∧
      fresh11.get_grad_type1.2.n_add_sgd = 0 ∧ fresh11.get_grad_type2.2.n_add_sgd = 0) :=
  ⟨⟨rfl, rfl⟩, stale_read fresh11 rfl rfl⟩

/-- C5: a repeated read is stable.  After `update_gradient(F)` and a gradient read (of
either kind), a later read of either kind with no `update_gradient` in between returns the
`G1` and `G2` of the first read, whatever sequence of `sample_repr`, `update_mean` and
`update_var` calls is made between the two reads. -/
theorem repeated_read_stable (sqrt : K → K) (s : gaus_repr_t K) (F : DenseMat K)
    (ops : List (Between K)) :
    (runBetween sqrt ops (update_gradient sqrt s F).get_grad_type1.2).get_grad_type1.1 =
      (update_gradient sqrt s F).get_grad_type1.1 ∧
    (runBetween sqrt ops (update_gradient sqrt s F).get_grad_type1.2).get_grad_type2.1 =
      (update_gradient sqrt s F).get_grad_type2.1 ∧
    (runBetween sqrt ops (update_gradient sqrt s F).get_grad_type2.2).get_grad_type1.1 =
      (update_gradient sqrt s F).get_grad_type1.1 ∧
    (runBetween sqrt ops (update_gradient sqrt s F).get_grad_type2.2).get_grad_type2.1 =
      (update_gradient sqrt s F).get_grad_type2.1 := by
  have hf : (update_gradient sqrt s F).summarized = false := by simp [update_gradient]
  have h12 := read_consumes (update_gradient sqrt s F) hf
  obtain ⟨hs, hn, ha, hb⟩ := h12
  have hrun := runBetween_keeps sqrt ops (update_gradient sqrt s F).get_grad_type1.2
  have hz : (runBetween sqrt ops (update_gradient sqrt s F).get_grad_type1.2).n_add_sgd = 0 := by
    rw [hrun.1, hn]
  have hread := read_of_zero_counter _ hz
  rw [← hs]
  refine ⟨?_, ?_, ?_, ?_⟩
  · rw [hread.1, hrun.2.1, ha]
  · rw [hread.2, hrun.2.2, hb]
  · rw [hread.1, hrun.2.1, ha]
  · rw [hread.2, hrun.2.2, hb]

/-- C6: sample round-trip.  For every state, every pair of rotation operands and every
noise draw, the matrix returned by `sample_repr` and the one read by `get_sampled_repr`
afterwards are `Mean + Eps ⊙ sqrt(Var)` taken coefficient by coefficient from the `Eps`,
`Mean` and `Var` of the state after the call; `Mean`, `Var`, the five running sums, `G1`,
`G2`, `n_add_sgd` and `summarized` are as before the call.  The same holds for the overload
without rotation operands. -/
theorem sample_round_trip (sqrt : K → K) (s : gaus_repr_t K) (left right : Rotation K)
    (rnorm : Nat → K) :
    ((sample_repr sqrt s left right rnorm).1 =
        eta_spec sqrt (sample_repr sqrt s left right rnorm).2.Mean
          (sample_repr sqrt s left right rnorm).2.Eps (sample_repr sqrt s left right rnorm).2.Var ∧
      get_sampled_repr (sample_repr sqrt s left right rnorm).2 =
        (sample_repr sqrt s left right rnorm).1 ∧
      (sample_repr sqrt s left right rnorm).2 =
        { s with Eps := (sample_repr sqrt s left right rnorm).2.Eps
                 Eta := (sample_repr sqrt s left right rnorm).2.Eta }) ∧
    ((sample_repr_plain sqrt s rnorm).1 =
        eta_spec sqrt (sample_repr_plain sqrt s rnorm).2.Mean
          (sample_repr_plain sqrt s rnorm).2.Eps (sample_repr_plain sqrt s rnorm).2.Var ∧
      get_sampled_repr (sample_repr_plain sqrt s rnorm).2 = (sample_repr_plain sqrt s rnorm).1 ∧
      (sample_repr_plain sqrt s rnorm).2 =
        { s with Eps := (sample_repr_plain sqrt s rnorm).2.Eps
                 Eta := (sample_repr_plain sqrt s rnorm).2.Eta }) := by
  refine ⟨?_, ?_⟩
  · cases left <;> cases right <;>
      simp [sample_repr, _impl_sample_repr, get_sampled_repr, eta_spec_eq]
  · simp [sample_repr_plain, _impl_sample_repr, get_sampled_repr, eta_spec_eq]

/-- C7: rotation no-op equivalence.  For a state whose `Eps` is `n × m` and one noise draw,
`sample_repr` with `dummy_rotation_t` on the left, on the right or on both sides returns the
same `Eta` and leaves the same state (so the same `Eps`) as `sample_repr` with the `n × n`
identity on the left, respectively the `m × m` identity on the right, in that position;
this holds next to any matrix in the other position, and the overload without rotation
operands agrees with them. -/
theorem rotation_noop (sqrt : K → K) (s : gaus_repr_t K) (rnorm : Nat → K)
    (hE : s.Eps.hasShape s.n s.m) :
    (sample_repr sqrt s (.mat (.identity s.n)) (.mat (.identity s.m)) rnorm =
        sample_repr sqrt s .dummy .dummy rnorm ∧
      sample_repr sqrt s (.mat (.identity s.n)) .dummy rnorm =
        sample_repr sqrt s .dummy .dummy rnorm ∧
      sample_repr sqrt s .dummy (.mat (.identity s.m)) rnorm =
        sample_repr sqrt s .dummy .dummy rnorm ∧
      sample_repr_plain sqrt s rnorm = sample_repr sqrt s .dummy .dummy rnorm) ∧
    (∀ R : DenseMat K, sample_repr sqrt s (.mat (.identity s.n)) (.mat R) rnorm =
        sample_repr sqrt s .dummy (.mat R) rnorm) ∧
    (∀ L : DenseMat K, sample_repr sqrt s (.mat L) (.mat (.identity s.m)) rnorm =
        sample_repr sqrt s (.mat L) .dummy rnorm) := by
  have hF := DenseMat.fillRnorm_hasShape s.Eps rnorm s.n s.m hE
  have hl := DenseMat.identity_mul s.n s.m _ hF
  have hr := DenseMat.mul_identity s.n s.m _ hF
  refine ⟨⟨?_, ?_, ?_, ?_⟩, ?_, ?_⟩
  · simp [sample_repr, _impl_sample_repr, Rotation.mulLeft, Rotation.mulRight, hl, hr]
  · simp [sample_repr, _impl_sample_repr, Rotation.mulLeft, Rotation.mulRight, hl]
  · simp [sample_repr, _impl_sample_repr, Rotation.mulLeft, Rotation.mulRight, hr]
  · simp [sample_repr, sample_repr_plain, _impl_sample_repr, Rotation.mulLeft,
      Rotation.mulRight]
  · intro R
    simp [sample_repr, _impl_sample_repr, Rotation.mulLeft, Rotation.mulRight, hl]
  · intro L
    have hm := DenseMat.mul_identity L.rows s.m (L.mul (s.Eps.fillRnorm rnorm))
      (by
        have h := DenseMat.mul_hasShape L (s.Eps.fillRnorm rnorm)
        have hc : (s.Eps.fillRnorm rnorm).cols = s.m := hF.2.1
        rw [hc] at h
        exact h)
    simp [sample_repr, _impl_sample_repr, Rotation.mulLeft, Rotation.mulRight, hm]

/-- Witness of C7 at the fresh `2 × 2` state with the noise draw `1, 2, 3, 4`. -/
theorem rotation_noop_witness :
    fresh22.Eps.hasShape fresh22.n fresh22.m ∧
    sample_repr Rat.sqrt fresh22 (.mat (.identity fresh22.n)) (.mat (.identity fresh22.m))
        rnormSeq =
      sample_repr Rat.sqrt fresh22 .dummy .dummy rnormSeq :=
  ⟨by decide, (rotation_noop Rat.sqrt fresh22 rnormSeq (by decide)).1.1⟩

/-- C8: `update_mean(M)` sets `Mean` to `M`, `update_var(V)` sets `Var` to `V`, each sets
`summarized = false`, and every other field (the five running sums, `n_add_sgd`, `G1`,
`G2`, `Eps`, `Eta`, the other parameter, the two scratch matrices and the dimensions) is
left as it was. -/
theorem update_mean_var_frame (s : gaus_repr_t K) (M V : DenseMat K) :
    ((update_mean s M).Mean = M ∧ (update_mean s M).summarized = false ∧
      (update_mean s M).Var = s.Var ∧
      (update_mean s M).Fcum = s.Fcum ∧ (update_mean s M).FepsSdCum = s.FepsSdCum ∧
      (update_mean s M).Feps1VarCum = s.Feps1VarCum ∧ (update_mean s M).epsSdCum = s.epsSdCum ∧
      (update_mean s M).eps1VarCum = s.eps1VarCum ∧ (update_mean s M).n_add_sgd = s.n_add_sgd ∧
      (update_mean s M).G1 = s.G1 ∧ (update_mean s M).G2 = s.G2 ∧
      (update_mean s M).Eps = s.Eps ∧ (update_mean s M).Eta = s.Eta ∧
      (update_mean s M).epsSd = s.epsSd ∧ (update_mean s M).eps1Var = s.eps1Var ∧
      (update_mean s M).n = s.n ∧ (update_mean s M).m = s.m) ∧
    ((update_var s V).Var = V ∧ (update_var s V).summarized = false ∧
      (update_var s V).Mean = s.Mean ∧
      (update_var s V).Fcum = s.Fcum ∧ (update_var s V).FepsSdCum = s.FepsSdCum ∧
      (update_var s V).Feps1VarCum = s.Feps1VarCum ∧ (update_var s V).epsSdCum = s.epsSdCum ∧
      (update_var s V).eps1VarCum = s.eps1VarCum ∧ (update_var s V).n_add_sgd = s.n_add_sgd ∧
      (update_var s V).G1 = s.G1 ∧ (update_var s V).G2 = s.G2 ∧
      (update_var s V).Eps = s.Eps ∧ (update_var s V).Eta = s.Eta ∧
      (update_var s V).epsSd = s.epsSd ∧ (update_var s V).eps1Var = s.eps1Var ∧
      (update_var s V).n = s.n ∧ (update_var s V).m = s.m) := by
  simp [update_mean, update_var, copy_matrix]

/-- C9, as stated, fails: `clear_repr` zeroes the thirteen matrices but does not touch the
observation counter.  After one `update_gradient` on a fresh `1 × 1` state the counter is
`1`, and it is still `1` after `clear_repr`. -/
theorem clear_repr_keeps_counter :
    oneObs11.n_add_sgd = 1 ∧ (clear_repr oneObs11).n_add_sgd = 1 ∧
      ¬ (∀ s : gaus_repr_t ℚ, (clear_repr s).n_add_sgd = 0) := by
  have h1 : oneObs11.n_add_sgd = 1 := by
    simp [oneObs11, update_gradient, sample_repr, update_var, fresh11, make_gaus_repr,
      clear_repr, gaus_repr_t.ctor]
  have h2 : (clear_repr oneObs11).n_add_sgd = 1 := by
    rw [← h1]
    rfl
  refine ⟨h1, h2, fun h => ?_⟩
  have h3 := h oneObs11
  rw [h2] at h3
  exact one_ne_zero h3

/-- C9, amended: after `clear_repr` every matrix field (`G1`, `G2`, `Eta`, `Eps`, `Mean`,
`Var`, the five running sums, `epsSd`, `eps1Var`) is the `n × m` zero matrix, while the
observation counter `n_add_sgd`, the flag `summarized` and the dimensions keep the values
they had before the call. -/
theorem clear_repr_zeroes_matrices (s : gaus_repr_t K) :
    clear_repr s =
      { n := s.n, m := s.m
        G1 := .setZero s.n s.m, G2 := .setZero s.n s.m, Eta := .setZero s.n s.m
        Eps := .setZero s.n s.m, Mean := .setZero s.n s.m, Var := .setZero s.n s.m
        Fcum := .setZero s.n s.m, FepsSdCum := .setZero s.n s.m
        Feps1VarCum := .setZero s.n s.m, epsSdCum := .setZero s.n s.m
        eps1VarCum := .setZero s.n s.m, epsSd := .setZero s.n s.m, eps1Var := .setZero s.n s.m
        summarized := s.summarized
        n_add_sgd := s.n_add_sgd } ∧
    (DenseMat.setZero s.n s.m : DenseMat K).hasShape s.n s.m ∧
    (DenseMat.setZero s.n s.m : DenseMat K).allZero :=
  ⟨rfl, DenseMat.setZero_hasShape _ _, DenseMat.setZero_allZero _ _⟩

/-- C10: construction.  The state made by `make_gaus_repr` from an `n × m` template has
every matrix field equal to the `n × m` zero matrix, `n_add_sgd = 0`,
`summarized = false`, `rows() = n` and `cols() = m`, and either gradient read from it
returns the `n × m` zero matrix. -/
theorem make_gaus_repr_zero (y : DenseMat K) :
    make_gaus_repr y =
      { n := y.rows, m := y.cols
        G1 := .setZero y.rows y.cols, G2 := .setZero y.rows y.cols
        Eta := .setZero y.rows y.cols, Eps := .setZero y.rows y.cols
        Mean := .setZero y.rows y.cols, Var := .setZero y.rows y.cols
        Fcum := .setZero y.rows y.cols, FepsSdCum := .setZero y.rows y.cols
        Feps1VarCum := .setZero y.rows y.cols, epsSdCum := .setZero y.rows y.cols
        eps1VarCum := .setZero y.rows y.cols, epsSd := .setZero y.rows y.cols
        eps1Var := .setZero y.rows y.cols
        summarized := false
        n_add_sgd := 0 } ∧
    (make_gaus_repr y).rows = y.rows ∧ (make_gaus_repr y).cols = y.cols ∧
    (make_gaus_repr y).get_grad_type1.1 = .setZero y.rows y.cols ∧
    (make_gaus_repr y).get_grad_type2.1 = .setZero y.rows y.cols ∧
    (DenseMat.setZero y.rows y.cols : DenseMat K).hasShape y.rows y.cols ∧
    (DenseMat.setZero y.rows y.cols : DenseMat K).allZero := by
  refine ⟨rfl, rfl, rfl, ?_, ?_, DenseMat.setZero_hasShape _ _, DenseMat.setZero_allZero _ _⟩ <;>
    simp [make_gaus_repr, clear_repr, gaus_repr_t.ctor, gaus_repr_t.get_grad_type1,
      gaus_repr_t.get_grad_type2, gaus_repr_t.summarize]

/-- C11: the additive floor keeps the denominators away from zero.  For a square root that is
positive on positive arguments and every variance entry `var ≥ 0` (also `var = 0`), the two
denominators of `update_gradient`, `sqrt(var_min + var)` and `var_min + var`, are strictly
positive; so both quotients are genuine: multiplied by their denominator they give back
`eps` and `eps * eps − 1`. -/
theorem denominators_positive (sqrt : K → K) (hsqrt : ∀ x : K, 0 < x → 0 < sqrt x) (var : K)
    (hvar : 0 ≤ var) :
    0 < sqrt (var_min + var) ∧ 0 < var_min + var ∧
    ∀ eps : K, EpsSd_op sqrt eps var * sqrt (var_min + var) = eps ∧
      Eps1Var_op eps var * (var_min + var) = eps * eps - 1 := by
  have hmin : (0 : K) < var_min := by
    unfold var_min
    positivity
  have h2 : 0 < var_min + var := add_pos_of_pos_of_nonneg hmin hvar
  have h1 : 0 < sqrt (var_min + var) := hsqrt _ h2
  refine ⟨h1, h2, fun eps => ⟨?_, ?_⟩⟩
  · unfold EpsSd_op
    exact div_mul_cancel₀ eps (ne_of_gt h1)
  · unfold Eps1Var_op
    exact div_mul_cancel₀ _ (ne_of_gt h2)

/-- Witness of C11 over the reals with the real square root, at `var = 0`. -/
theorem denominators_positive_witness :
    (∀ x : ℝ, 0 < x → 0 < Real.sqrt x) ∧ (0 : ℝ) ≤ 0 ∧
    (0 < Real.sqrt (var_min + 0) ∧ (0 : ℝ) < var_min + 0 ∧
      ∀ eps : ℝ, EpsSd_op Real.sqrt eps 0 * Real.sqrt (var_min + 0) = eps ∧
        Eps1Var_op eps 0 * (var_min + 0) = eps * eps - 1) :=
  ⟨fun _ hx => Real.sqrt_pos.mpr hx, le_refl 0,
    denominators_positive Real.sqrt (fun _ hx => Real.sqrt_pos.mpr hx) 0 (le_refl 0)⟩

/-- C12: shape invariant.  The state made by `make_gaus_repr` from an `n × m` template has
every matrix field of shape `n × m`, and so has every state reached from it by any sequence
of `clear_repr`, `sample_repr` (rotations absent, or `n × n` on the left and `m × m` on the
right), `update_gradient(F)`, `update_mean(M)`, `update_var(V)`, `summarize` and gradient
reads in which `F`, `M` and `V` are `n × m`. -/
theorem shape_invariant (sqrt : K → K) (y : DenseMat K) (ops : List (Op K))
    (hops : ∀ op ∈ ops, op.fits y.rows y.cols) :
    (make_gaus_repr y).shaped y.rows y.cols ∧
    (runOps sqrt ops (make_gaus_repr y)).shaped y.rows y.cols := by
  have h0 : (make_gaus_repr y).shaped y.rows y.cols :=
    clear_repr_shaped _ _ _ rfl rfl
  exact ⟨h0, runOps_shaped sqrt _ _ ops _ h0 hops⟩

/-- Witness of C12 at the `2 × 2` template and the sequence `opsDemo`. -/
theorem shape_invariant_witness :
    (∀ op ∈ opsDemo, op.fits y22.rows y22.cols) ∧
    ((make_gaus_repr y22).shaped y22.rows y22.cols ∧
      (runOps Rat.sqrt opsDemo (make_gaus_repr y22)).shaped y22.rows y22.cols) :=
  ⟨by simp [opsDemo, Op.fits, Rotation.fits, DenseMat.hasShape, DenseMat.identity, y22],
    shape_invariant Rat.sqrt y22 opsDemo
      (by simp [opsDemo, Op.fits, Rotation.fits, DenseMat.hasShape, DenseMat.identity, y22])⟩

/-- C13: counter invariant.  In every state reached from construction by any sequence of
`clear_repr`, `sample_repr`, `update_gradient`, `update_mean`, `update_var`, `summarize` and
gradient reads, `summarized = true` implies `n_add_sgd = 0`; and a gradient read of either
kind taken in such a state leaves `n_add_sgd = 0` and `summarized = true`. -/
theorem counter_invariant (sqrt : K → K) (y : DenseMat K) (ops : List (Op K)) :
    ((runOps sqrt ops (make_gaus_repr y)).summarized = true →
      (runOps sqrt ops (make_gaus_repr y)).n_add_sgd = 0) ∧
    (runOps sqrt ops (make_gaus_repr y)).get_grad_type1.2.n_add_sgd = 0 ∧
    (runOps sqrt ops (make_gaus_repr y)).get_grad_type1.2.summarized = true ∧
    (runOps sqrt ops (make_gaus_repr y)).get_grad_type2.2.n_add_sgd = 0 ∧
    (runOps sqrt ops (make_gaus_repr y)).get_grad_type2.2.summarized = true := by
  have h0 : (make_gaus_repr y).summarized = true → (make_gaus_repr y).n_add_sgd = 0 :=
    fun _ => rfl
  have h := runOps_counter sqrt ops (make_gaus_repr y) h0
  exact ⟨h, read_sets_flags _ h⟩

/-- C14, as stated, fails for `clear_repr`: on a state with a valid summary and mean `5` it
changes `Mean` (to zero) and leaves `summarized = true`. -/
theorem clear_repr_keeps_summarized :
    changesInputs summarized11 (clear_repr summarized11) ∧
      (clear_repr summarized11).summarized = true := by
  refine ⟨Or.inl ?_, ?_⟩
  · simp [summarized11, clear_repr, update_mean, copy_matrix, gaus_repr_t.get_grad_type1,
      gaus_repr_t.summarize, fresh11, make_gaus_repr, gaus_repr_t.ctor, DenseMat.setZero, y11]
  · simp [summarized11, clear_repr, update_mean, gaus_repr_t.get_grad_type1,
      gaus_repr_t.summarize]

/-- C14, amended: for every state and every operation among `sample_repr`,
`update_gradient`, `update_mean` and `update_var`, if the operation changes `Mean`, `Var` or
one of the five running sums then `summarized` is false in the resulting state;
`clear_repr` leaves `summarized` as it was. -/
theorem cache_invalidated (sqrt : K → K) (s : gaus_repr_t K) :
    (∀ F : DenseMat K, changesInputs s (update_gradient sqrt s F) →
      (update_gradient sqrt s F).summarized = false) ∧
    (∀ M : DenseMat K, changesInputs s (update_mean s M) →
      (update_mean s M).summarized = false) ∧
    (∀ V : DenseMat K, changesInputs s (update_var s V) →
      (update_var s V).summarized = false) ∧
    (∀ (l r : Rotation K) (rnorm : Nat → K),
      (changesInputs s (sample_repr sqrt s l r rnorm).2 →
        (sample_repr sqrt s l r rnorm).2.summarized = false) ∧
      (changesInputs s (sample_repr_plain sqrt s rnorm).2 →
        (sample_repr_plain sqrt s rnorm).2.summarized = false)) ∧
    (clear_repr s).summarized = s.summarized := by
  refine ⟨fun F _ => ?_, fun M _ => ?_, fun V _ => ?_, fun l r rnorm => ⟨fun h => ?_, fun h => ?_⟩,
    rfl⟩
  · simp [update_gradient]
  · simp [update_mean]
  · simp [update_var]
  · exfalso
    revert h
    cases l <;> cases r <;> simp [changesInputs, sample_repr, _impl_sample_repr]
  · exfalso
    revert h
    simp [changesInputs, sample_repr_plain, _impl_sample_repr]

/-- C16: window isolation.  For two states that both have `n_add_sgd = 0`, whatever their
running sums and stored `G1` / `G2`, folding the same non-empty sequence of observations
with `update_gradient` and then reading yields the same `G1` and the same `G2`. -/
theorem window_isolation (sqrt : K → K) (s u : gaus_repr_t K) (obs : List (Obs K))
    (hs : s.n_add_sgd = 0) (hu : u.n_add_sgd = 0) (hne : obs ≠ []) :
    (foldObs sqrt s obs).get_grad_type1.1 = (foldObs sqrt u obs).get_grad_type1.1 ∧
    (foldObs sqrt s obs).get_grad_type2.1 = (foldObs sqrt u obs).get_grad_type2.1 := by
  have hpos : 0 < (foldObs sqrt s obs).n_add_sgd := by
    rw [foldObs_counter, hs, zero_add]
    exact Nat.cast_pos.mpr (List.length_pos.mpr hne)
  have hpend := foldObs_pending sqrt obs s hne
  cases obs with
  | nil => exact absurd rfl hne
  | cons o l =>
    have hw : sameWindow (foldObs sqrt s (o :: l)) (foldObs sqrt u (o :: l)) := by
      have h1 := foldObs_sameWindow sqrt l _ _ (observe_sameWindow_first sqrt s u o hs hu)
      simpa [foldObs] using h1
    exact read_sameWindow _ _ hw hpend hpos

/-- Witness of C16: the fresh `1 × 1` state and the one that still stores the sums of a
consumed window, both folding `obs2`. -/
theorem window_isolation_witness :
    (fresh11.n_add_sgd = 0 ∧ consumed11.n_add_sgd = 0 ∧ obs2 ≠ []) ∧
    ((foldObs Rat.sqrt fresh11 obs2).get_grad_type1.1 =
        (foldObs Rat.sqrt consumed11 obs2).get_grad_type1.1 ∧
      (foldObs Rat.sqrt fresh11 obs2).get_grad_type2.1 =
        (foldObs Rat.sqrt consumed11 obs2).get_grad_type2.1) :=
  ⟨⟨rfl, rfl, by simp [obs2]⟩,
    window_isolation Rat.sqrt fresh11 consumed11 obs2 rfl rfl (by simp [obs2])⟩

/-- C18: read-order independence.  For every state, `get_grad_type1` followed by
`get_grad_type2` returns the same pair `(G1, G2)` and leaves the same state as
`get_grad_type2` followed by `get_grad_type1`. -/
theorem read_order_independent (s : gaus_repr_t K) :
    (s.get_grad_type1.1, s.get_grad_type1.2.get_grad_type2.1) =
      (s.get_grad_type2.2.get_grad_type1.1, s.get_grad_type2.1) ∧
    s.get_grad_type1.2.get_grad_type2.2 = s.get_grad_type2.2.get_grad_type1.2 := by
  cases hs : s.summarized <;>
    simp [gaus_repr_t.get_grad_type1, gaus_repr_t.get_grad_type2, gaus_repr_t.summarize, hs]

/-- C19: for every state, whatever its `n_add_sgd` and `summarized`, a gradient read of
either kind made right after `clear_repr` returns the `n × m` zero matrix. -/
theorem read_after_clear (s : gaus_repr_t K) :
    (clear_repr s).get_grad_type1.1 = .setZero s.n s.m ∧
    (clear_repr s).get_grad_type2.1 = .setZero s.n s.m := by
  cases hs : s.summarized <;> by_cases hn : 0 < s.n_add_sgd <;>
    simp [gaus_repr_t.get_grad_type1, gaus_repr_t.get_grad_type2, gaus_repr_t.summarize, hs, hn,
      clear_repr, DenseMat.setZero, DenseMat.sub, DenseMat.cwiseProduct, DenseMat.divScalar,
      DenseMat.scalarMul, DenseMat.binaryExpr, DenseMat.unaryExpr]

end Claims

end GausRepr
